import Mathlib

/-!
Verification of the TrueNAS websocket integration core: a shallow embedding
of the session transport (`websocket.py`: reconnect/backoff loop, inbound
frame validation, message-handler dispatch) and of the request coordinator
(`coordinator.py`: connection/login handlers, message correlation, and the
periodic refresh cycle), together with theorems about their behaviour.

Delays are modelled over the rationals; Python floats are used by the code
only as durations, never in branch conditions, so exact arithmetic is
faithful for the properties proved here.
-/

namespace TrueNas

/-- Request/response ids are `int | str` in the client
(`msg_id: int | str` in `websocket.py`). -/
abbrev MsgId : Type := String ⊕ Int

/-- The reserved request key used for the login call:
the coordinator sends `send_login("auth.login_with_api_key")` and the
message handler compares `msg_id` against this string. -/
def loginKey : MsgId := Sum.inl "auth.login_with_api_key"

/-- Lookup in a Python-dict-like association list (`d[k]` / `d.get(k)`). -/
def dictGet {α : Type} : List (MsgId × α) → MsgId → Option α
  | [], _ => none
  | (k2, v) :: rest, k => if k2 = k then some v else dictGet rest k

/-- Assignment in a Python-dict-like association list (`d[k] = v`):
replaces the value in place when the key exists, appends otherwise. -/
def dictSet {α : Type} : List (MsgId × α) → MsgId → α → List (MsgId × α)
  | [], k, v => [(k, v)]
  | (k2, w) :: rest, k, v =>
      if k2 = k then (k2, v) :: rest else (k2, w) :: dictSet rest k v

/-- Key membership test for Python-dict-like key lists (`k in d`). -/
def keyMem : List MsgId → MsgId → Bool
  | [], _ => false
  | k2 :: rest, k => if k2 = k then true else keyMem rest k

/-- Key removal for Python-dict-like key lists (`d.pop(k)` on a dict whose
values are abstracted away): removes the entry for `k` when present. -/
def keyErase : List MsgId → MsgId → List MsgId
  | [], _ => []
  | k2 :: rest, k => if k2 = k then rest else k2 :: keyErase rest k

/-- Membership in a list of request keys is decidable (by scanning). -/
instance decMemMsgId (k : MsgId) : ∀ (l : List MsgId), Decidable (k ∈ l)
  | [] => isFalse (fun h => by cases h)
  | k2 :: rest =>
      if h : k2 = k then
        isTrue (by rw [h]; exact List.mem_cons_self k rest)
      else
        match decMemMsgId k rest with
        | isTrue hr => isTrue (List.mem_cons_of_mem k2 hr)
        | isFalse hr =>
            isFalse (fun hm => by
              rcases List.mem_cons.mp hm with he | hee
              · exact h he.symm
              · exact hr hee)

/-! ## Session transport: reconnect backoff (`WebSocketClient._connect_with_retry`) -/

/-- The backoff parameters of `WebSocketClient.__init__`:
`initial_retry_delay`, `max_retry_delay`, `backoff_factor`. -/
structure BackoffConfig where
  initialRetryDelay : ℚ
  maxRetryDelay : ℚ
  backoffFactor : ℚ

/-- One iteration outcome of the reconnect loop: the connection attempt
either fails (the `TimeoutError | aiohttp.ClientError | OSError` branch)
or succeeds (`ws_connect` returns and the listen loop starts). -/
inductive ConnAttempt
  | fail
  | success
deriving DecidableEq

/-- The delay computed on a failed attempt:
`min(initial_retry_delay * backoff_factor ** retry_count, max_retry_delay)`. -/
def retryDelay (cfg : BackoffConfig) (retryCount : ℕ) : ℚ :=
  min (cfg.initialRetryDelay * cfg.backoffFactor ^ retryCount) cfg.maxRetryDelay

/-- The reconnect loop of `_connect_with_retry`, restricted to its effect on
`_retry_count` and the sleeps it performs: a successful connection resets
`_retry_count` to 0 and sleeps nothing; a failed attempt sleeps
`retryDelay cfg retryCount` and then increments `_retry_count`.
Returns the list of backoff delays slept, in order. -/
def connectWithRetry (cfg : BackoffConfig) : ℕ → List ConnAttempt → List ℚ
  | _, [] => []
  | _, ConnAttempt.success :: rest => connectWithRetry cfg 0 rest
  | rc, ConnAttempt.fail :: rest =>
      retryDelay cfg rc :: connectWithRetry cfg (rc + 1) rest

/-! ## Session transport: `connect()` and the connection task -/

/-- The `WebSocketClient` attributes touched by `connect()`:
`_should_reconnect`, the owned `aiohttp.ClientSession` (as a flag), and the
stored `_connection_task`.  Tasks are identified by a counter so that
"another task was started" is observable in the state. -/
structure TransportState where
  shouldReconnect : Bool
  sessionOpen : Bool
  nextTaskId : ℕ
  connectionTask : Option ℕ
deriving DecidableEq

/-- The relevant attributes as left by `WebSocketClient.__init__`. -/
def initTransportState : TransportState :=
  { shouldReconnect := true, sessionOpen := false
  , nextTaskId := 0, connectionTask := none }

/-- `WebSocketClient.connect()`: sets `_should_reconnect = True`, creates
the client session if absent, and unconditionally creates a fresh
`_connect_with_retry` task, storing its handle in `_connection_task`.
The call itself only schedules the task and returns. -/
def wsConnect (s : TransportState) : TransportState :=
  { shouldReconnect := true
  , sessionOpen := true
  , nextTaskId := s.nextTaskId + 1
  , connectionTask := some s.nextTaskId }

/-! ## Session transport: frame validation and handler dispatch
(`WebSocketClient._listen`) -/

/-- An inbound text frame after JSON parsing, restricted to the fields the
listen loop reads via `data.get(...)`.  A field is `none` when the key is
absent from the JSON object or its value is JSON `null` (both make
`data.get(...)` return `None`). -/
structure Frame (γ : Type) where
  id : Option MsgId
  result : Option γ
  error : Option γ
deriving DecidableEq

/-- Frame validation in `_listen`: drop the frame (`none`) when
`msg_id is None` or both `result is None and error is None`; otherwise
deliver `(msg_id, payload, is_error)` where
`is_error = error is not None` and `payload = error if is_error else result`. -/
def processFrame {γ : Type} (f : Frame γ) : Option (MsgId × γ × Bool) :=
  match f.id with
  | none => none
  | some msgId =>
      match f.result, f.error with
      | none, none => none
      | _, some e => some (msgId, e, true)
      | some r, none => some (msgId, r, false)

/-- The observable outcome of one registered handler on one message:
it either returns normally or raises (the raised value is what `_listen`
catches and logs). -/
inductive HandlerOutcome (ε : Type)
  | success
  | raised (e : ε)
deriving DecidableEq

/-- The dispatch loop of `_listen`: each registered handler is awaited in
turn inside `try/except Exception`, so a raised error is recorded and the
loop proceeds to the next handler.  Returns the outcomes in registration
order. -/
def notifyMessageHandlers {γ ε : Type}
    (handlers : List (MsgId × γ × Bool → HandlerOutcome ε)) :
    MsgId × γ × Bool → List (HandlerOutcome ε) :=
  fun m =>
    match handlers with
    | [] => []
    | h :: rest => h m :: notifyMessageHandlers rest m

/-- The text-frame portion of the listen loop: each frame is validated by
`processFrame`; invalid frames are logged and skipped, valid frames are
dispatched to every registered handler, and the loop continues with the
remaining frames either way. -/
def listenLoop {γ ε : Type}
    (handlers : List (MsgId × γ × Bool → HandlerOutcome ε)) :
    List (Frame γ) → List (List (HandlerOutcome ε))
  | [] => []
  | f :: rest =>
      match processFrame f with
      | none => listenLoop handlers rest
      | some m => notifyMessageHandlers handlers m :: listenLoop handlers rest

/-! ## Coordinator state and callback handlers (`TrueNasDataUpdateCoordinator`) -/

/-- The coordinator's mutable state: `_connection_ok`, `_logged_in`,
`_data_cache` and (the key set of) `_pending_requests`.  The future objects
held in `_pending_requests` are abstracted away: only the presence of a key
matters to the handlers, and a future's eventual outcome is supplied as an
explicit input where the refresh cycle is modelled. -/
structure CoordState (α : Type) where
  connectionOk : Bool
  loggedIn : Bool
  dataCache : List (MsgId × α)
  pendingRequests : List MsgId
deriving DecidableEq

/-- The state set up by `TrueNasDataUpdateCoordinator.__init__`. -/
def initCoordState (α : Type) : CoordState α := ⟨false, false, [], []⟩

/-- `_handle_connection_change(is_connected, error)`:
stores `is_connected` into `_connection_ok`; when connected it sends the
login request (`sendLoginFails` records whether that `send_login` call
raised, in which case `_logged_in` is set to `False`); when disconnected it
clears `_logged_in`. -/
def handleConnectionChange {α : Type} (s : CoordState α)
    (isConnected : Bool) (sendLoginFails : Bool) : CoordState α :=
  if isConnected then
    if sendLoginFails then { s with connectionOk := true, loggedIn := false }
    else { s with connectionOk := true }
  else
    { s with connectionOk := false, loggedIn := false }

/-- `_handle_message(msg_id, data, is_error)`.  Returns the new state and
whether `async_set_updated_data` was called (external collaborators
notified).  A login response only flips `_logged_in`; an error response
only pops a matching pending request (and is otherwise only logged); a
result response resolves a matching pending request, and otherwise
(unsolicited) writes the data cache and notifies.  Every branch returns
normally: the handler raises on no input. -/
def handleMessage {α : Type} (s : CoordState α) (msgId : MsgId) (data : α)
    (isError : Bool) : CoordState α × Bool :=
  if msgId = loginKey then
    if isError then ({ s with loggedIn := false }, false)
    else ({ s with loggedIn := true }, false)
  else if isError then
    (if keyMem s.pendingRequests msgId then
      { s with pendingRequests := keyErase s.pendingRequests msgId }
     else s, false)
  else if keyMem s.pendingRequests msgId then
    ({ s with pendingRequests := keyErase s.pendingRequests msgId }, false)
  else
    ({ s with dataCache := dictSet s.dataCache msgId data }, true)

/-- An event delivered to the coordinator by the transport: either a
connection-state callback or a message callback. -/
inductive CoordEvent (α : Type)
  | connChange (isConnected : Bool) (sendLoginFails : Bool)
  | message (msgId : MsgId) (data : α) (isError : Bool)

/-- Process one transport event through the corresponding handler. -/
def stepCoord {α : Type} (s : CoordState α) : CoordEvent α → CoordState α
  | CoordEvent.connChange c f => handleConnectionChange s c f
  | CoordEvent.message i d e => (handleMessage s i d e).1

/-- Process a sequence of transport events. -/
def runCoord {α : Type} (s : CoordState α) (evs : List (CoordEvent α)) :
    CoordState α :=
  evs.foldl stepCoord s

/-- The transport delivers messages only from inside its listen loop, which
runs strictly between the `(True, None)` and the following `(False, …)`
connection notifications: an event trace is deliverable when every message
event occurs while `_connection_ok` is set. -/
def eventsDeliverable {α : Type} : CoordState α → List (CoordEvent α) → Bool
  | _, [] => true
  | s, CoordEvent.connChange c f :: rest =>
      eventsDeliverable (stepCoord s (CoordEvent.connChange c f)) rest
  | s, CoordEvent.message i d e :: rest =>
      s.connectionOk
      && eventsDeliverable (stepCoord s (CoordEvent.message i d e)) rest

/-! ## Coordinator refresh cycle (`_async_update_data`) -/

/-- What the transport eventually delivers for one request key during a
refresh wait: a result response, an error response, or nothing before the
aggregate timeout expires. -/
inductive Response (α : Type)
  | result (v : α)
  | error (e : α)
  | missing
deriving DecidableEq

/-- Whether a key's response never arrives within the aggregate timeout. -/
def responseAbsent {α : Type} : Response α → Bool
  | Response.missing => true
  | _ => false

/-- `_MAX_LOGIN_RETRIES` in `coordinator.py`. -/
def maxLoginRetries : ℕ := 10

/-- The duration of each `asyncio.sleep` in the precondition poll loop of
`_async_update_data`, in seconds. -/
def loginPollDelay : ℚ := 1

/-- The precondition poll loop of `_async_update_data`:
`while not (connection_ok and logged_in) and retry < MAX: retry += 1; sleep(1)`,
followed by re-reading the flags.  `okSeq k` is the value of
`_connection_ok and _logged_in` observed at the k-th evaluation of the
condition (the flags may change between polls as the callback handlers
run); `fuel` is the number of retries still allowed.  Returns whether the
loop ends with the flags set (otherwise the code raises `TimeoutError`). -/
def loginWaitSucceeds (okSeq : ℕ → Bool) : ℕ → ℕ → Bool
  | retry, 0 => okSeq retry
  | retry, fuel + 1 =>
      if okSeq retry then true else loginWaitSucceeds okSeq (retry + 1) fuel

/-- `self._pending_requests[job_key] = future`: dict assignment on the key
set — keeps the key in place when present, appends otherwise. -/
def pendingInsert (p : List MsgId) (k : MsgId) : List MsgId :=
  if keyMem p k then p else p ++ [k]

/-- One step of the cache-update loop after `asyncio.gather`:
`if not isinstance(results[index], Exception): cache[job_key] = results[index]`
— a result writes the cache slot, an error leaves it untouched. -/
def applyResult {α : Type} (resp : MsgId → Response α)
    (c : List (MsgId × α)) (k : MsgId) : List (MsgId × α) :=
  match resp k with
  | Response.result v => dictSet c k v
  | _ => c

/-- The failure reported when the precondition poll bound is exceeded
(`raise TimeoutError("Connection or login to server failed")`). -/
inductive RefreshError
  | loginTimeout
deriving DecidableEq

/-- `_async_update_data`, with the transport's behaviour supplied as
inputs: `okSeq` is the polled `_connection_ok and _logged_in` sequence, and
`resp k` is what the listen loop delivers for key `k` during the aggregate
wait (sends are assumed to succeed; a delivered response pops its key from
`_pending_requests` via `_handle_message`).  Returns the new coordinator
state, the list of request keys sent, and either the refresh result (the
data cache) or the precondition timeout error.  On aggregate timeout every
pending future is cancelled, `_pending_requests` is cleared, and
`_data_cache` is reset to the empty dict, which is then returned. -/
def asyncUpdateData {α : Type} (okSeq : ℕ → Bool) (s : CoordState α)
    (batch : List MsgId) (resp : MsgId → Response α) :
    CoordState α × List MsgId × Except RefreshError (List (MsgId × α)) :=
  if loginWaitSucceeds okSeq 0 maxLoginRetries then
    let pending1 := batch.foldl pendingInsert s.pendingRequests
    if pending1.any (fun k => responseAbsent (resp k)) then
      ({ s with dataCache := [], pendingRequests := [] }, batch, Except.ok [])
    else
      let cache1 := pending1.foldl (applyResult resp) s.dataCache
      ({ s with dataCache := cache1, pendingRequests := [] }, batch,
        Except.ok cache1)
  else
    (s, [], Except.error RefreshError.loginTimeout)

/-- The fixed batch of job keys issued by `_async_update_data`. -/
def refreshJobKeys : List MsgId :=
  [Sum.inl "system.info", Sum.inl "update.status",
   Sum.inl "reporting.graph.cpu", Sum.inl "reporting.graph.cputemp",
   Sum.inl "pool.query", Sum.inl "disk.temperatures",
   Sum.inl "reporting.graph.memory", Sum.inl "reporting.graph.arcsize"]

/-! ## Concrete sample inputs used to instantiate theorems -/

/-- A poll sequence in which the connection and login flags are always up. -/
def sampleOk : ℕ → Bool := fun _ => true

/-- A two-request batch as in the spec's partial-failure scenario. -/
def sampleBatch : List MsgId := [Sum.inl "a", Sum.inl "b"]

/-- Responses delivering a result for key `"a"` and an error for `"b"`. -/
def sampleResp : MsgId → Response ℕ :=
  fun k => if k = Sum.inl "a" then Response.result 1 else Response.error 9

/-- Responses in which nothing arrives before the aggregate timeout. -/
def sampleRespNone : MsgId → Response ℕ := fun _ => Response.missing

/-- A connected, logged-in coordinator state with a previously cached value
for key `"b"` and a value cached under a key outside the batch. -/
def sampleState : CoordState ℕ :=
  ⟨true, true, [(Sum.inl "b", 5), (Sum.inl "outside", 3)], []⟩

/-! ## Lemmas about the dict helpers -/

lemma dictGet_dictSet_self {α : Type} (d : List (MsgId × α)) (k : MsgId)
    (v : α) : dictGet (dictSet d k v) k = some v := by
  induction d with
  | nil => simp [dictGet, dictSet]
  | cons p rest ih =>
      by_cases h : p.1 = k <;> simp [dictGet, dictSet, h, ih]

lemma dictGet_dictSet_ne {α : Type} (d : List (MsgId × α)) (k2 k : MsgId)
    (v : α) (h : k2 ≠ k) : dictGet (dictSet d k2 v) k = dictGet d k := by
  induction d with
  | nil => simp [dictGet, dictSet, h]
  | cons p rest ih =>
      by_cases h2 : p.1 = k2 <;> simp [dictGet, dictSet, h2, h, ih]

lemma keyMem_iff_mem (l : List MsgId) (k : MsgId) :
    keyMem l k = true ↔ k ∈ l := by
  induction l with
  | nil => simp [keyMem]
  | cons k2 rest ih =>
      by_cases h : k2 = k
      · simp [keyMem, h]
      · have h2 : k ≠ k2 := fun he => h he.symm
        simp [keyMem, h, h2, ih]

/-! ## C1: reconnect backoff -/

lemma connectWithRetry_replicate_fail (cfg : BackoffConfig) :
    ∀ (n rc : ℕ),
      connectWithRetry cfg rc (List.replicate n ConnAttempt.fail)
        = (List.range n).map (fun k => retryDelay cfg (rc + k)) := by
  intro n
  induction n with
  | zero => intro rc; simp [connectWithRetry]
  | succ n ih =>
      intro rc
      rw [List.replicate_succ, List.range_succ_eq_map]
      have h1 : (fun k => retryDelay cfg (rc + 1 + k))
          = (fun k => retryDelay cfg (rc + Nat.succ k)) := by
        funext k; congr 1; omega
      simp [connectWithRetry, ih (rc + 1), List.map_map, Function.comp, h1]

lemma connectWithRetry_append_success (cfg : BackoffConfig)
    (tail : List ConnAttempt) :
    ∀ (pre : List ConnAttempt) (rc : ℕ),
      connectWithRetry cfg rc (pre ++ ConnAttempt.success :: tail)
        = connectWithRetry cfg rc pre ++ connectWithRetry cfg 0 tail := by
  intro pre
  induction pre with
  | nil => intro rc; simp [connectWithRetry]
  | cons a pre ih =>
      intro rc
      cases a <;> simp [connectWithRetry, ih]

/-- C1: after any event history followed by a successful connection, the
delays slept on the next `n` consecutive failed attempts are exactly
`min(initialRetryDelay * backoffFactor ^ k, maxRetryDelay)` for
`k = 0, …, n-1` — so the Nth consecutive failure sleeps
`min(initialRetryDelay * backoffFactor ^ (N-1), maxRetryDelay)` — and the
same formula holds for consecutive failures from the initial state, since
`_retry_count` starts at 0 and is reset to 0 by every success. -/
theorem backoff_delay_after_failures (cfg : BackoffConfig)
    (pre : List ConnAttempt) (n : ℕ) :
    connectWithRetry cfg 0
        (pre ++ ConnAttempt.success :: List.replicate n ConnAttempt.fail)
        = connectWithRetry cfg 0 pre
          ++ (List.range n).map
              (fun k => min (cfg.initialRetryDelay * cfg.backoffFactor ^ k)
                cfg.maxRetryDelay)
    ∧ connectWithRetry cfg 0 (List.replicate n ConnAttempt.fail)
        = (List.range n).map
            (fun k => min (cfg.initialRetryDelay * cfg.backoffFactor ^ k)
              cfg.maxRetryDelay) := by
  have hrep := connectWithRetry_replicate_fail cfg n 0
  have hfun : (fun k => retryDelay cfg (0 + k))
      = (fun k => min (cfg.initialRetryDelay * cfg.backoffFactor ^ k)
          cfg.maxRetryDelay) := by
    funext k; simp [retryDelay]
  constructor
  · rw [connectWithRetry_append_success cfg _ pre 0, hrep, hfun]
  · rw [hrep, hfun]

/-! ## C2: authenticated only while connected -/

lemma handleMessage_connectionOk {α : Type} (s : CoordState α)
    (msgId : MsgId) (data : α) (isError : Bool) :
    (handleMessage s msgId data isError).1.connectionOk = s.connectionOk := by
  simp only [handleMessage]
  by_cases h1 : msgId = loginKey <;>
    by_cases h2 : isError = true <;>
      by_cases h3 : keyMem s.pendingRequests msgId = true <;>
        simp [h1, h2, h3]

lemma runCoord_auth_inv {α : Type} :
    ∀ (evs : List (CoordEvent α)) (s : CoordState α),
      (s.loggedIn = true → s.connectionOk = true) →
      eventsDeliverable s evs = true →
      ((runCoord s evs).loggedIn = true →
        (runCoord s evs).connectionOk = true) := by
  intro evs
  induction evs with
  | nil => intro s hs _; simpa [runCoord] using hs
  | cons e rest ih =>
      intro s hs hdeliv
      have hrun : runCoord s (e :: rest) = runCoord (stepCoord s e) rest := by
        simp [runCoord]
      rw [hrun]
      cases e with
      | connChange c f =>
          rw [eventsDeliverable] at hdeliv
          refine ih _ ?_ hdeliv
          cases c <;> cases f <;> simp [stepCoord, handleConnectionChange]
      | message i d err =>
          rw [eventsDeliverable, Bool.and_eq_true] at hdeliv
          refine ih _ ?_ hdeliv.2
          intro _
          rw [stepCoord, handleMessage_connectionOk]
          exact hdeliv.1

/-- C2: over any deliverable event trace from the initial state, the
authenticated flag `_logged_in` is true only when `_connection_ok` is also
true; moreover every `connected=false` event clears the authenticated
flag. -/
theorem auth_only_when_connected {α : Type} (evs : List (CoordEvent α))
    (h : eventsDeliverable (initCoordState α) evs = true) :
    ((runCoord (initCoordState α) evs).loggedIn = true →
      (runCoord (initCoordState α) evs).connectionOk = true)
    ∧ ∀ (s : CoordState α) (f : Bool),
        (handleConnectionChange s false f).loggedIn = false := by
  constructor
  · exact runCoord_auth_inv evs (initCoordState α) (by simp [initCoordState]) h
  · intro s f; simp [handleConnectionChange]

/-- C2 witness: a concrete deliverable trace — connect, successful login
response, an unsolicited data message, then disconnect and reconnect. -/
theorem auth_only_when_connected_witness :
    eventsDeliverable (initCoordState ℕ)
        [CoordEvent.connChange true false,
         CoordEvent.message loginKey 0 false,
         CoordEvent.message (Sum.inl "system.info") 7 false,
         CoordEvent.connChange false false,
         CoordEvent.connChange true false] = true
    ∧ ((runCoord (initCoordState ℕ)
          [CoordEvent.connChange true false,
           CoordEvent.message loginKey 0 false,
           CoordEvent.message (Sum.inl "system.info") 7 false,
           CoordEvent.connChange false false,
           CoordEvent.connChange true false]).loggedIn = true →
        (runCoord (initCoordState ℕ)
          [CoordEvent.connChange true false,
           CoordEvent.message loginKey 0 false,
           CoordEvent.message (Sum.inl "system.info") 7 false,
           CoordEvent.connChange false false,
           CoordEvent.connChange true false]).connectionOk = true) :=
  ⟨by decide,
   (auth_only_when_connected
      [CoordEvent.connChange true false,
       CoordEvent.message loginKey 0 false,
       CoordEvent.message (Sum.inl "system.info") 7 false,
       CoordEvent.connChange false false,
       CoordEvent.connChange true false] (by decide)).1⟩

/-! ## C3: unsolicited responses -/

/-- C3 counterexample: an unsolicited error response (`is_error = True`,
id `"x"` not in `_pending_requests`, not the login key) leaves the data
cache untouched and does not notify external collaborators, contrary to
the claim that it updates the cache under its id and triggers a
notification. -/
theorem unsolicited_error_not_cached :
    (handleMessage (⟨true, true, [], []⟩ : CoordState ℕ)
        (Sum.inl "x") 7 true).1.dataCache = []
    ∧ (handleMessage (⟨true, true, [], []⟩ : CoordState ℕ)
        (Sum.inl "x") 7 true).2 = false := by
  constructor <;> decide

/-- C3 (amended): an unsolicited non-error response — id not in
`_pending_requests` and distinct from the login key — updates the data
cache under that id and triggers an immediate notification, without
raising; an unsolicited error response is logged and dropped: it leaves
both the cache and the notification behaviour untouched, and also does not
raise. -/
theorem unsolicited_message_handling {α : Type} (s : CoordState α)
    (msgId : MsgId) (d : α)
    (hlogin : msgId ≠ loginKey)
    (hpend : keyMem s.pendingRequests msgId = false) :
    (handleMessage s msgId d false).1.dataCache = dictSet s.dataCache msgId d
    ∧ (handleMessage s msgId d false).2 = true
    ∧ (handleMessage s msgId d true).1 = s
    ∧ (handleMessage s msgId d true).2 = false := by
  simp [handleMessage, hlogin, hpend]

/-- C3 witness: a pending request for `"a"` is outstanding; an unsolicited
response for `"pool.query"` updates the cache and notifies, while an
unsolicited error for the same key changes nothing. -/
theorem unsolicited_message_handling_witness :
    ((Sum.inl "pool.query" : MsgId) ≠ loginKey
      ∧ keyMem (⟨true, true, [(Sum.inl "b", 5)], [Sum.inl "a"]⟩ :
          CoordState ℕ).pendingRequests (Sum.inl "pool.query") = false)
    ∧ ((handleMessage (⟨true, true, [(Sum.inl "b", 5)], [Sum.inl "a"]⟩ :
          CoordState ℕ) (Sum.inl "pool.query") 9 false).1.dataCache
        = dictSet [(Sum.inl "b", 5)] (Sum.inl "pool.query") 9
      ∧ (handleMessage (⟨true, true, [(Sum.inl "b", 5)], [Sum.inl "a"]⟩ :
          CoordState ℕ) (Sum.inl "pool.query") 9 false).2 = true
      ∧ (handleMessage (⟨true, true, [(Sum.inl "b", 5)], [Sum.inl "a"]⟩ :
          CoordState ℕ) (Sum.inl "pool.query") 9 true).1
        = ⟨true, true, [(Sum.inl "b", 5)], [Sum.inl "a"]⟩
      ∧ (handleMessage (⟨true, true, [(Sum.inl "b", 5)], [Sum.inl "a"]⟩ :
          CoordState ℕ) (Sum.inl "pool.query") 9 true).2 = false) :=
  ⟨⟨by decide, by decide⟩,
   unsolicited_message_handling
     (⟨true, true, [(Sum.inl "b", 5)], [Sum.inl "a"]⟩ : CoordState ℕ)
     (Sum.inl "pool.query") 9 (by decide) (by decide)⟩

/-! ## C5: inbound frame validation -/

/-- C5 counterexample: a frame carrying an id together with *both* a
`result` and an `error` is not dropped — contrary to the claim that a frame
must contain exactly one of the two — but is delivered to the registered
handlers as an error frame with the error payload. -/
theorem frame_with_result_and_error_delivered :
    processFrame (⟨some (Sum.inl "x"), some 1, some 2⟩ : Frame ℕ)
      = some (Sum.inl "x", 2, true)
    ∧ listenLoop (ε := ℕ) [fun _ => HandlerOutcome.success]
        [(⟨some (Sum.inl "x"), some 1, some 2⟩ : Frame ℕ)]
      = [[HandlerOutcome.success]] := by
  constructor <;> decide

/-- C5 (amended): a frame lacking an `id` (absent or null), or containing
neither `result` nor `error`, is logged and dropped — no message handler is
invoked for it — and the listen loop carries on with the remaining frames
(the connection stays open); a frame containing both `result` and `error`
is instead delivered to the handlers as an error frame carrying the error
payload. -/
theorem invalid_frame_dropped {γ ε : Type}
    (handlers : List (MsgId × γ × Bool → HandlerOutcome ε))
    (f : Frame γ) (rest : List (Frame γ))
    (hdrop : f.id = none ∨ (f.result = none ∧ f.error = none)) :
    processFrame f = none
    ∧ listenLoop handlers (f :: rest) = listenLoop handlers rest
    ∧ ∀ (i : MsgId) (r e : γ) (tail : List (Frame γ)),
        listenLoop handlers (Frame.mk (some i) (some r) (some e) :: tail)
          = notifyMessageHandlers handlers (i, e, true)
            :: listenLoop handlers tail := by
  have hnone : processFrame f = none := by
    rcases f with ⟨fid, fres, ferr⟩
    rcases hdrop with h | ⟨h1, h2⟩
    · simp only at h
      rw [h]
      rfl
    · simp only at h1 h2
      rw [h1, h2]
      cases fid <;> rfl
  refine ⟨hnone, ?_, ?_⟩
  · rw [listenLoop, hnone]
  · intro i r e tail
    rw [listenLoop]
    rfl

/-- C5 witness: a frame whose JSON object has a `result` but no `id` is
dropped and the following valid frame is still processed. -/
theorem invalid_frame_dropped_witness :
    ((⟨none, some 1, none⟩ : Frame ℕ).id = none
      ∨ ((⟨none, some 1, none⟩ : Frame ℕ).result = none
        ∧ (⟨none, some 1, none⟩ : Frame ℕ).error = none))
    ∧ (processFrame (⟨none, some 1, none⟩ : Frame ℕ) = none
      ∧ listenLoop (ε := ℕ) [fun _ => HandlerOutcome.success]
          [(⟨none, some 1, none⟩ : Frame ℕ),
           (⟨some (Sum.inl "y"), some 4, none⟩ : Frame ℕ)]
        = listenLoop (ε := ℕ) [fun _ => HandlerOutcome.success]
            [(⟨some (Sum.inl "y"), some 4, none⟩ : Frame ℕ)]
      ∧ ∀ (i : MsgId) (r e : ℕ) (tail : List (Frame ℕ)),
          listenLoop (ε := ℕ) [fun _ => HandlerOutcome.success]
              (Frame.mk (some i) (some r) (some e) :: tail)
            = notifyMessageHandlers (ε := ℕ) [fun _ => HandlerOutcome.success]
                (i, e, true)
              :: listenLoop (ε := ℕ) [fun _ => HandlerOutcome.success] tail) :=
  ⟨Or.inl rfl,
   invalid_frame_dropped [fun _ => HandlerOutcome.success]
     (⟨none, some 1, none⟩ : Frame ℕ)
     [(⟨some (Sum.inl "y"), some 4, none⟩ : Frame ℕ)] (Or.inl rfl)⟩

/-! ## C6: connect() -/

/-- C6 counterexample: calling `connect()` a second time while the
connection task started by the first call is still stored does *not* leave
the transport state unchanged — a second, distinct reconnect task is
created and stored — so `connect()` is not idempotent as claimed. -/
theorem connect_twice_not_idempotent :
    wsConnect (wsConnect initTransportState) ≠ wsConnect initTransportState
    ∧ (wsConnect (wsConnect initTransportState)).nextTaskId = 2
    ∧ (wsConnect initTransportState).nextTaskId = 1 := by
  refine ⟨?_, rfl, rfl⟩
  decide

/-- C6 (amended): `connect()` does not block the caller beyond scheduling —
it only sets `_should_reconnect`, ensures the client session exists, and
schedules a background task — but it is not idempotent: every call,
including one made while a reconnect task is already running, starts one
additional task and overwrites the stored task handle with the new one. -/
theorem connect_always_starts_task (s : TransportState) :
    (wsConnect s).nextTaskId = s.nextTaskId + 1
    ∧ (wsConnect s).connectionTask = some s.nextTaskId
    ∧ (wsConnect s).shouldReconnect = true
    ∧ (wsConnect s).sessionOpen = true := by
  simp [wsConnect]

/-! ## C8: handler dispatch isolation -/

lemma notifyMessageHandlers_eq_map {γ ε : Type}
    (handlers : List (MsgId × γ × Bool → HandlerOutcome ε))
    (m : MsgId × γ × Bool) :
    notifyMessageHandlers handlers m = handlers.map (fun h => h m) := by
  induction handlers with
  | nil => rfl
  | cons h rest ih => simp [notifyMessageHandlers, ih]

lemma listenLoop_eq_filterMap {γ ε : Type}
    (handlers : List (MsgId × γ × Bool → HandlerOutcome ε)) :
    ∀ frames : List (Frame γ),
      listenLoop handlers frames
        = (frames.filterMap processFrame).map
            (notifyMessageHandlers handlers) := by
  intro frames
  induction frames with
  | nil => rfl
  | cons f rest ih =>
      rw [listenLoop]
      cases hf : processFrame f <;>
        simp [List.filterMap_cons, hf, ih]

/-- C8: for any well-formed inbound message and any registration-ordered
handler list containing a handler that raises, dispatch still invokes every
handler exactly once in registration order — the raising handler's
exception is caught and recorded, and every later-registered handler is
still invoked — and the listen loop goes on to process every remaining
frame regardless of handler outcomes. -/
theorem handler_error_isolation {γ ε : Type}
    (pre post : List (MsgId × γ × Bool → HandlerOutcome ε))
    (bad : MsgId × γ × Bool → HandlerOutcome ε) (e : ε)
    (m : MsgId × γ × Bool)
    (hbad : bad m = HandlerOutcome.raised e) :
    notifyMessageHandlers (pre ++ bad :: post) m
      = pre.map (fun h => h m)
        ++ HandlerOutcome.raised e :: post.map (fun h => h m)
    ∧ ∀ frames : List (Frame γ),
        listenLoop (pre ++ bad :: post) frames
          = (frames.filterMap processFrame).map
              (notifyMessageHandlers (pre ++ bad :: post)) := by
  constructor
  · rw [notifyMessageHandlers_eq_map]
    simp [hbad]
  · exact listenLoop_eq_filterMap (pre ++ bad :: post)

/-- C8 witness: one well-behaved handler before and one after a handler
that raises; all three are invoked in order on a concrete frame, and the
loop still processes a concrete two-frame input. -/
theorem handler_error_isolation_witness :
    (fun (_ : MsgId × ℕ × Bool) => HandlerOutcome.raised 3)
        ((Sum.inl "x" : MsgId), 0, false) = HandlerOutcome.raised (3 : ℕ)
    ∧ notifyMessageHandlers
        ([fun _ => HandlerOutcome.success]
          ++ (fun (_ : MsgId × ℕ × Bool) => HandlerOutcome.raised 3)
            :: [fun _ => HandlerOutcome.success])
        ((Sum.inl "x" : MsgId), 0, false)
      = [fun (_ : MsgId × ℕ × Bool) =>
            (HandlerOutcome.success : HandlerOutcome ℕ)].map
            (fun h => h ((Sum.inl "x" : MsgId), 0, false))
        ++ HandlerOutcome.raised 3
          :: [fun (_ : MsgId × ℕ × Bool) =>
                (HandlerOutcome.success : HandlerOutcome ℕ)].map
              (fun h => h ((Sum.inl "x" : MsgId), 0, false))
    ∧ listenLoop
        ([fun _ => HandlerOutcome.success]
          ++ (fun (_ : MsgId × ℕ × Bool) => HandlerOutcome.raised 3)
            :: [fun _ => HandlerOutcome.success])
        [(⟨some (Sum.inl "x"), some 0, none⟩ : Frame ℕ),
         (⟨some (Sum.inl "y"), none, some 8⟩ : Frame ℕ)]
      = ([(⟨some (Sum.inl "x"), some 0, none⟩ : Frame ℕ),
          (⟨some (Sum.inl "y"), none, some 8⟩ : Frame ℕ)].filterMap
            processFrame).map
          (notifyMessageHandlers
            ([fun _ => HandlerOutcome.success]
              ++ (fun (_ : MsgId × ℕ × Bool) => HandlerOutcome.raised 3)
                :: [fun _ => HandlerOutcome.success])) :=
  ⟨rfl,
   (handler_error_isolation [fun _ => HandlerOutcome.success]
      [fun _ => HandlerOutcome.success]
      (fun _ => HandlerOutcome.raised 3) 3
      ((Sum.inl "x" : MsgId), 0, false) rfl).1,
   (handler_error_isolation [fun _ => HandlerOutcome.success]
      [fun _ => HandlerOutcome.success]
      (fun _ => HandlerOutcome.raised 3) 3
      ((Sum.inl "x" : MsgId), 0, false) rfl).2
     [(⟨some (Sum.inl "x"), some 0, none⟩ : Frame ℕ),
      (⟨some (Sum.inl "y"), none, some 8⟩ : Frame ℕ)]⟩

/-! ## Lemmas about the refresh cycle -/

lemma loginWaitSucceeds_eq_false (okSeq : ℕ → Bool) :
    ∀ (fuel retry : ℕ),
      (∀ k, retry ≤ k → k ≤ retry + fuel → okSeq k = false) →
      loginWaitSucceeds okSeq retry fuel = false := by
  intro fuel
  induction fuel with
  | zero =>
      intro retry h
      simp only [loginWaitSucceeds]
      exact h retry le_rfl (by omega)
  | succ fuel ih =>
      intro retry h
      simp only [loginWaitSucceeds]
      rw [h retry le_rfl (by omega)]
      simp only [Bool.false_eq_true, if_false]
      exact ih (retry + 1) (fun k h1 h2 => h k (by omega) (by omega))

lemma loginWaitSucceeds_congr (g okSeq : ℕ → Bool) :
    ∀ (fuel retry : ℕ),
      (∀ k, retry ≤ k → k ≤ retry + fuel → g k = okSeq k) →
      loginWaitSucceeds g retry fuel = loginWaitSucceeds okSeq retry fuel := by
  intro fuel
  induction fuel with
  | zero =>
      intro retry h
      simp only [loginWaitSucceeds]
      exact h retry le_rfl (by omega)
  | succ fuel ih =>
      intro retry h
      simp only [loginWaitSucceeds]
      rw [h retry le_rfl (by omega)]
      cases okSeq retry with
      | true => simp
      | false =>
          simp only [Bool.false_eq_true, if_false]
          exact ih (retry + 1) (fun k h1 h2 => h k (by omega) (by omega))

lemma mem_pendingInsert_left (p : List MsgId) (b k : MsgId) (h : k ∈ p) :
    k ∈ pendingInsert p b := by
  unfold pendingInsert
  split
  · exact h
  · simp [h]

lemma mem_pendingInsert_self (p : List MsgId) (b : MsgId) :
    b ∈ pendingInsert p b := by
  unfold pendingInsert
  split
  · next h => exact (keyMem_iff_mem p b).mp h
  · simp

lemma mem_foldl_pendingInsert (k : MsgId) :
    ∀ (batch p : List MsgId), k ∈ p ∨ k ∈ batch →
      k ∈ batch.foldl pendingInsert p := by
  intro batch
  induction batch with
  | nil =>
      intro p h
      rcases h with h | h
      · simpa using h
      · cases h
  | cons b rest ih =>
      intro p h
      rw [List.foldl_cons]
      rcases h with h | h
      · exact ih _ (Or.inl (mem_pendingInsert_left p b k h))
      · rcases List.mem_cons.mp h with h | h
        · subst h
          exact ih _ (Or.inl (mem_pendingInsert_self p k))
        · exact ih _ (Or.inr h)

lemma foldl_pendingInsert_of_disjoint :
    ∀ (batch p : List MsgId), batch.Nodup → (∀ k ∈ batch, k ∉ p) →
      batch.foldl pendingInsert p = p ++ batch := by
  intro batch
  induction batch with
  | nil => intro p _ _; simp
  | cons b rest ih =>
      intro p hnd hdis
      rw [List.foldl_cons]
      have hb : keyMem p b = false := by
        cases hkm : keyMem p b
        · rfl
        · exact absurd ((keyMem_iff_mem p b).mp hkm) (hdis b (by simp))
      have hins : pendingInsert p b = p ++ [b] := by
        unfold pendingInsert
        rw [hb]
        simp
      have hnd2 := List.nodup_cons.mp hnd
      have hdis2 : ∀ k ∈ rest, k ∉ p ++ [b] := by
        intro k hk
        simp only [List.mem_append, List.mem_singleton]
        rintro (hp | hkb)
        · exact hdis k (by simp [hk]) hp
        · exact hnd2.1 (hkb ▸ hk)
      rw [hins, ih (p ++ [b]) hnd2.2 hdis2]
      simp

lemma dictGet_applyResult_ne {α : Type} (resp : MsgId → Response α)
    (c : List (MsgId × α)) (k2 k : MsgId) (h : k2 ≠ k) :
    dictGet (applyResult resp c k2) k = dictGet c k := by
  unfold applyResult
  cases resp k2
  · exact dictGet_dictSet_ne c k2 k _ h
  · rfl
  · rfl

lemma dictGet_foldl_applyResult_not_mem {α : Type}
    (resp : MsgId → Response α) (k : MsgId) :
    ∀ (keys : List MsgId) (c : List (MsgId × α)), k ∉ keys →
      dictGet (keys.foldl (applyResult resp) c) k = dictGet c k := by
  intro keys
  induction keys with
  | nil => intro c _; rfl
  | cons k2 rest ih =>
      intro c hk
      rw [List.foldl_cons]
      have h2 : k2 ≠ k := fun he => hk (by simp [he])
      rw [ih _ (fun hr => hk (by simp [hr])),
        dictGet_applyResult_ne resp c k2 k h2]

lemma dictGet_foldl_applyResult_result {α : Type}
    (resp : MsgId → Response α) (k : MsgId) (v : α) :
    ∀ (keys : List MsgId) (c : List (MsgId × α)), keys.Nodup → k ∈ keys →
      resp k = Response.result v →
      dictGet (keys.foldl (applyResult resp) c) k = some v := by
  intro keys
  induction keys with
  | nil => intro c _ h _; cases h
  | cons k2 rest ih =>
      intro c hnd hk hr
      rw [List.foldl_cons]
      by_cases he : k2 = k
      · subst he
        have hnr : k2 ∉ rest := (List.nodup_cons.mp hnd).1
        rw [dictGet_foldl_applyResult_not_mem resp k2 rest _ hnr]
        unfold applyResult
        rw [hr]
        exact dictGet_dictSet_self c k2 v
      · have hkr : k ∈ rest := by
          rcases List.mem_cons.mp hk with h | h
          · exact absurd h.symm he
          · exact h
        exact ih _ (List.nodup_cons.mp hnd).2 hkr hr

lemma dictGet_foldl_applyResult_error {α : Type}
    (resp : MsgId → Response α) (k : MsgId) (e : α) :
    ∀ (keys : List MsgId) (c : List (MsgId × α)), keys.Nodup → k ∈ keys →
      resp k = Response.error e →
      dictGet (keys.foldl (applyResult resp) c) k = dictGet c k := by
  intro keys
  induction keys with
  | nil => intro c _ h _; cases h
  | cons k2 rest ih =>
      intro c hnd hk hr
      rw [List.foldl_cons]
      by_cases he : k2 = k
      · subst he
        have hnr : k2 ∉ rest := (List.nodup_cons.mp hnd).1
        rw [dictGet_foldl_applyResult_not_mem resp k2 rest _ hnr]
        unfold applyResult
        rw [hr]
      · have hkr : k ∈ rest := by
          rcases List.mem_cons.mp hk with h | h
          · exact absurd h.symm he
          · exact h
        rw [ih _ (List.nodup_cons.mp hnd).2 hkr hr,
          dictGet_applyResult_ne resp c k2 k he]

/-! ## C4: partial success and failure in one refresh batch -/

/-- C4: when every batch member resolves before the aggregate timeout and
the responses mix results with errors, the refresh returns the updated
cache, in which each key that received a result maps to its new payload
and each key that received an error maps to whatever was cached for it
before the refresh. -/
theorem refresh_partial_results {α : Type} (okSeq : ℕ → Bool)
    (s : CoordState α) (batch : List MsgId) (resp : MsgId → Response α)
    (a b : MsgId) (va eb : α)
    (hok : loginWaitSucceeds okSeq 0 maxLoginRetries = true)
    (hpend : s.pendingRequests = [])
    (hnodup : batch.Nodup)
    (hall : ∀ k ∈ batch, responseAbsent (resp k) = false)
    (ha : a ∈ batch) (hra : resp a = Response.result va)
    (hb : b ∈ batch) (hrb : resp b = Response.error eb) :
    (asyncUpdateData okSeq s batch resp).2.2
      = Except.ok (batch.foldl (applyResult resp) s.dataCache)
    ∧ dictGet (batch.foldl (applyResult resp) s.dataCache) a = some va
    ∧ dictGet (batch.foldl (applyResult resp) s.dataCache) b
      = dictGet s.dataCache b := by
  have hp1 : batch.foldl pendingInsert s.pendingRequests = batch := by
    rw [hpend]
    have := foldl_pendingInsert_of_disjoint batch [] hnodup (by simp)
    simpa using this
  have hany : (batch.any fun k => responseAbsent (resp k)) = false := by
    cases h : batch.any fun k => responseAbsent (resp k)
    · rfl
    · obtain ⟨x, hx, hpx⟩ := List.any_eq_true.mp h
      rw [hall x hx] at hpx
      cases hpx
  refine ⟨?_, ?_, ?_⟩
  · simp only [asyncUpdateData, hok, if_true, hp1, hany, Bool.false_eq_true,
      if_false]
  · exact dictGet_foldl_applyResult_result resp a va batch s.dataCache
      hnodup ha hra
  · exact dictGet_foldl_applyResult_error resp b eb batch s.dataCache
      hnodup hb hrb

/-- C4 witness: the spec scenario — batch of keys `"a"` and `"b"`, a result
`1` for `"a"`, an error for `"b"`, and `5` previously cached for `"b"`. -/
theorem refresh_partial_results_witness :
    (loginWaitSucceeds sampleOk 0 maxLoginRetries = true
      ∧ sampleState.pendingRequests = []
      ∧ sampleBatch.Nodup
      ∧ (∀ k ∈ sampleBatch, responseAbsent (sampleResp k) = false)
      ∧ Sum.inl "a" ∈ sampleBatch
      ∧ sampleResp (Sum.inl "a") = Response.result 1
      ∧ Sum.inl "b" ∈ sampleBatch
      ∧ sampleResp (Sum.inl "b") = Response.error 9)
    ∧ ((asyncUpdateData sampleOk sampleState sampleBatch sampleResp).2.2
        = Except.ok
            (sampleBatch.foldl (applyResult sampleResp) sampleState.dataCache)
      ∧ dictGet
          (sampleBatch.foldl (applyResult sampleResp) sampleState.dataCache)
          (Sum.inl "a") = some 1
      ∧ dictGet
          (sampleBatch.foldl (applyResult sampleResp) sampleState.dataCache)
          (Sum.inl "b") = dictGet sampleState.dataCache (Sum.inl "b")) :=
  ⟨⟨by decide, by decide, by decide, by decide, by decide, by decide,
    by decide, by decide⟩,
   refresh_partial_results sampleOk sampleState sampleBatch sampleResp
     (Sum.inl "a") (Sum.inl "b") 1 9 (by decide) (by decide) (by decide)
     (by decide) (by decide) (by decide) (by decide) (by decide)⟩

/-! ## C7: aggregate timeout empties the pending-request map -/

/-- C7: when the aggregate timeout fires because some batch member never
receives a response, the refresh still returns normally (with the — by then
cleared — data cache as its value) and afterwards no batch member key is
present in `_pending_requests`: the pending map is cleared outright. -/
theorem refresh_timeout_pending_cleared {α : Type} (okSeq : ℕ → Bool)
    (s : CoordState α) (batch : List MsgId) (resp : MsgId → Response α)
    (k0 : MsgId)
    (hok : loginWaitSucceeds okSeq 0 maxLoginRetries = true)
    (hk0 : k0 ∈ batch) (hmiss : resp k0 = Response.missing) :
    (asyncUpdateData okSeq s batch resp).2.2 = Except.ok []
    ∧ (asyncUpdateData okSeq s batch resp).1.pendingRequests = []
    ∧ ∀ k ∈ batch,
        k ∉ (asyncUpdateData okSeq s batch resp).1.pendingRequests := by
  have hmem : k0 ∈ batch.foldl pendingInsert s.pendingRequests :=
    mem_foldl_pendingInsert k0 batch s.pendingRequests (Or.inr hk0)
  have hany : ((batch.foldl pendingInsert s.pendingRequests).any
      fun k => responseAbsent (resp k)) = true :=
    List.any_eq_true.mpr ⟨k0, hmem, by rw [hmiss]; rfl⟩
  simp only [asyncUpdateData, hok, if_true, hany]
  simp

/-- C7 witness: the spec scenario — a batch of two requests, neither of
which is answered before the aggregate timeout. -/
theorem refresh_timeout_pending_cleared_witness :
    (loginWaitSucceeds sampleOk 0 maxLoginRetries = true
      ∧ Sum.inl "a" ∈ sampleBatch
      ∧ sampleRespNone (Sum.inl "a") = Response.missing)
    ∧ ((asyncUpdateData sampleOk sampleState sampleBatch sampleRespNone).2.2
        = Except.ok []
      ∧ (asyncUpdateData sampleOk sampleState sampleBatch
          sampleRespNone).1.pendingRequests = []
      ∧ ∀ k ∈ sampleBatch,
          k ∉ (asyncUpdateData sampleOk sampleState sampleBatch
            sampleRespNone).1.pendingRequests) :=
  ⟨⟨by decide, by decide, by decide⟩,
   refresh_timeout_pending_cleared sampleOk sampleState sampleBatch
     sampleRespNone (Sum.inl "a") (by decide) (by decide) (by decide)⟩

/-! ## C9: bounded precondition wait -/

/-- C9: the refresh precondition wait is bounded: the loop polls the
`_connection_ok and _logged_in` flags at most `_MAX_LOGIN_RETRIES = 10`
further times after the initial check (sleeping `loginPollDelay = 1`
second between polls), and its outcome depends only on those first polls;
if the flags are down at every poll the refresh raises the timeout error
for this cycle, sending no batch request and leaving the whole coordinator
state — pending requests and data cache included — unchanged. -/
theorem login_wait_bounded_timeout {α : Type} (okSeq : ℕ → Bool)
    (s : CoordState α) (batch : List MsgId) (resp : MsgId → Response α)
    (hfail : ∀ k, k ≤ maxLoginRetries → okSeq k = false) :
    asyncUpdateData okSeq s batch resp
      = (s, [], Except.error RefreshError.loginTimeout)
    ∧ ∀ g : ℕ → Bool, (∀ k, k ≤ maxLoginRetries → g k = okSeq k) →
        loginWaitSucceeds g 0 maxLoginRetries
          = loginWaitSucceeds okSeq 0 maxLoginRetries := by
  have hw : loginWaitSucceeds okSeq 0 maxLoginRetries = false :=
    loginWaitSucceeds_eq_false okSeq maxLoginRetries 0
      (fun k _ h2 => hfail k (by omega))
  constructor
  · simp only [asyncUpdateData, hw, Bool.false_eq_true, if_false]
  · intro g hg
    exact loginWaitSucceeds_congr g okSeq maxLoginRetries 0
      (fun k _ h2 => hg k (by omega))

/-- C9 witness: the flags stay down at every poll; the refresh reports the
login timeout and changes nothing. -/
theorem login_wait_bounded_timeout_witness :
    (∀ k, k ≤ maxLoginRetries → (fun (_ : ℕ) => false) k = false)
    ∧ asyncUpdateData (fun _ => false) sampleState sampleBatch sampleResp
      = (sampleState, [], Except.error RefreshError.loginTimeout) :=
  ⟨fun _ _ => rfl,
   (login_wait_bounded_timeout (fun _ => false) sampleState sampleBatch
     sampleResp (fun _ _ => rfl)).1⟩

/-! ## C10: aggregate timeout clears the whole data cache -/

/-- C10: when the aggregate timeout fires, `_data_cache` is reassigned to
the empty dict — every previously cached value is discarded, for keys
inside and outside the timed-out batch alike — and the refresh returns
that empty mapping: the code implements the clear-on-timeout policy. -/
theorem refresh_timeout_clears_cache {α : Type} (okSeq : ℕ → Bool)
    (s : CoordState α) (batch : List MsgId) (resp : MsgId → Response α)
    (k0 : MsgId)
    (hok : loginWaitSucceeds okSeq 0 maxLoginRetries = true)
    (hk0 : k0 ∈ batch) (hmiss : resp k0 = Response.missing) :
    (asyncUpdateData okSeq s batch resp).1.dataCache = []
    ∧ (∀ k : MsgId,
        dictGet (asyncUpdateData okSeq s batch resp).1.dataCache k = none)
    ∧ (asyncUpdateData okSeq s batch resp).2.2 = Except.ok [] := by
  have hmem : k0 ∈ batch.foldl pendingInsert s.pendingRequests :=
    mem_foldl_pendingInsert k0 batch s.pendingRequests (Or.inr hk0)
  have hany : ((batch.foldl pendingInsert s.pendingRequests).any
      fun k => responseAbsent (resp k)) = true :=
    List.any_eq_true.mpr ⟨k0, hmem, by rw [hmiss]; rfl⟩
  simp only [asyncUpdateData, hok, if_true, hany]
  simp [dictGet]

/-- C10 witness: the pre-refresh cache holds values both for batch key
`"b"` and for the non-batch key `"outside"`; after the timed-out refresh
the cache is empty and the empty mapping is returned. -/
theorem refresh_timeout_clears_cache_witness :
    (loginWaitSucceeds sampleOk 0 maxLoginRetries = true
      ∧ Sum.inl "b" ∈ sampleBatch
      ∧ sampleRespNone (Sum.inl "b") = Response.missing
      ∧ dictGet sampleState.dataCache (Sum.inl "outside") = some 3)
    ∧ ((asyncUpdateData sampleOk sampleState sampleBatch
          sampleRespNone).1.dataCache = []
      ∧ (∀ k : MsgId,
          dictGet (asyncUpdateData sampleOk sampleState sampleBatch
            sampleRespNone).1.dataCache k = none)
      ∧ (asyncUpdateData sampleOk sampleState sampleBatch
          sampleRespNone).2.2 = Except.ok []) :=
  ⟨⟨by decide, by decide, by decide, by decide⟩,
   refresh_timeout_clears_cache sampleOk sampleState sampleBatch
     sampleRespNone (Sum.inl "b") (by decide) (by decide) (by decide)⟩

end TrueNas
